import Mathlib

/-!
# Quizbook: the `TypeAnimation` forwarding component

Source: `frontend/src/components/Post/TypeAnimation.jsx`.

```
const TypeAnimation = ({
  sequence,
  wrapper = "span",
  cursor = true,
  repeat = Infinity,
}) => {
  return (
    <RawTypeAnimation
      sequence={sequence}
      wrapper={wrapper}
      cursor={cursor}
      repeat={repeat}
    />
  );
};
```

The component is a function from a props record to a React element.  The
embedding below keeps the two language mechanisms the function is made of:

* object destructuring with default initialisers (a default is taken exactly
  when the value read from the record is `undefined`, which is also what
  reading an absent property yields);
* a JSX element expression with four attributes and no children.

The component is embedded twice.  In the first embedding values are trees
(an array is the list of its elements); it serves the claims about which
value reaches the widget.  In the second, `Store.TypeAnimation`, values are
primitives or references into a heap of objects, and the call is a function
from the heap before to the heap after; it serves the claim that the caller's
data is left as it was.  Numbers are only carried, never computed with, so a
number is represented by a tag (a finite dyadic value, negative zero, the two
infinities, NaN).
-/

namespace Quizbook

/-! ## JavaScript values -/

/-- A JavaScript number, as far as this component can observe one: it is
stored and handed on, never operated on.  A finite value is
`mantissa * 2 ^ exponent`. -/
inductive JSNumber where
  | finite (mantissa : Int) (exponent : Int)
  | negZero
  | posInfinity
  | negInfinity
  | nan
  deriving DecidableEq, Repr

/-- JavaScript values that can occur as prop values: primitives, function
references (callbacks inside a sequence), arrays and plain objects. -/
inductive JSValue where
  | undefined
  | null
  | bool (b : Bool)
  | num (n : JSNumber)
  | str (s : String)
  | func (id : Nat)
  | arr (items : List JSValue)
  | obj (fields : List (String × JSValue))

mutual
/-- Structural comparison of two values. -/
def JSValue.beq : JSValue → JSValue → Bool
  | .undefined, .undefined => true
  | .null, .null => true
  | .bool a, .bool b => a == b
  | .num a, .num b => a == b
  | .str a, .str b => a == b
  | .func a, .func b => a == b
  | .arr xs, .arr ys => JSValue.beqList xs ys
  | .obj xs, .obj ys => JSValue.beqFields xs ys
  | _, _ => false
/-- Structural comparison of two arrays of values. -/
def JSValue.beqList : List JSValue → List JSValue → Bool
  | [], [] => true
  | x :: xs, y :: ys => JSValue.beq x y && JSValue.beqList xs ys
  | _, _ => false
/-- Structural comparison of two property lists. -/
def JSValue.beqFields : List (String × JSValue) → List (String × JSValue) → Bool
  | [], [] => true
  | (k, x) :: xs, (l, y) :: ys => k == l && JSValue.beq x y && JSValue.beqFields xs ys
  | _, _ => false
end

/-- The value `Infinity`. -/
def Infinity : JSValue := .num .posInfinity

/-! ## Props records -/

/-- A props record: the own properties of the object React passes to a
function component, in insertion order. -/
abbrev Props := List (String × JSValue)

/-- Whether the record has an own property `name`. -/
def hasProp : Props → String → Bool
  | [], _ => false
  | (k, _) :: rest, name => if k = name then true else hasProp rest name

/-- Property read `props.name`: the stored value, `undefined` when the record
has no such property.  (None of the names read by this component is defined on
`Object.prototype`, so the own properties decide the result.) -/
def getProp : Props → String → JSValue
  | [], _ => .undefined
  | (k, v) :: rest, name => if k = name then v else getProp rest name

/-- The names of the record's properties, in order. -/
def propNames (props : Props) : List String :=
  props.map Prod.fst

/-- A destructuring target with an initialiser, `name = dflt`: the initialiser
is used exactly when the value read is `undefined`. -/
def bindingWithDefault (value dflt : JSValue) : JSValue :=
  match value with
  | .undefined => dflt
  | v => v

/-! ## React elements -/

/-- What a JSX tag can name: a host element such as `span`, or a component
that a package exports. -/
inductive ElementType where
  | host (tag : String)
  | imported (package : String) (exportName : String)
  deriving DecidableEq, Repr

/-- A React element: the object a JSX expression evaluates to.  Children, when
there are any, live in `props.children`. -/
structure ReactElement where
  type : ElementType
  key : JSValue
  ref : JSValue
  props : Props

/-- A JSX element expression `<T a₁={v₁} … aₙ={vₙ} />` without `key`, `ref`
or children: the attributes become the element's props, in source order. -/
def jsxElement (type : ElementType) (attributes : Props) : ReactElement :=
  { type := type, key := .null, ref := .null, props := attributes }

/-- An exception thrown by JavaScript code. -/
inductive JSError where
  | thrown (value : JSValue)

/-- The four prop names the component reads and hands on. -/
def forwardedNames : List String :=
  ["sequence", "wrapper", "cursor", "repeat"]

/-- The three prop names that have a default initialiser. -/
def defaultedNames : List String :=
  ["wrapper", "cursor", "repeat"]

/-! ## The component -/

/-- The named export `TypeAnimation` of the package `react-type-animation`,
bound locally as `RawTypeAnimation`. -/
def RawTypeAnimation : ElementType :=
  .imported "react-type-animation" "TypeAnimation"

/-- The component `TypeAnimation` of `TypeAnimation.jsx`. -/
def TypeAnimation (props : Props) : Except JSError ReactElement :=
  let sequence := getProp props "sequence"
  let wrapper := bindingWithDefault (getProp props "wrapper") (.str "span")
  let cursor := bindingWithDefault (getProp props "cursor") (.bool true)
  let «repeat» := bindingWithDefault (getProp props "repeat") Infinity
  .ok (jsxElement RawTypeAnimation
    [("sequence", sequence), ("wrapper", wrapper), ("cursor", cursor), ("repeat", «repeat»)])


/-! ## The component on a heap

Arrays, records, functions and elements are objects with an identity: a
variable or a property holds a reference to one, and a write through any
reference is seen through all of them.  Here the heap is explicit, so that
what a call does to objects that existed before it can be stated. -/

namespace Store

/-- A value as a variable or property holds it: a primitive, or a reference to
an object on the heap. -/
inductive Value where
  | undefined
  | null
  | bool (b : Bool)
  | num (n : JSNumber)
  | str (s : String)
  | ref (addr : Nat)
  deriving DecidableEq, Repr

/-- The own properties of a record, in insertion order. -/
abbrev Record := List (String × Value)

/-- An object on the heap. -/
inductive Object where
  | array (items : List Value)
  | record (fields : Record)
  | function (id : Nat)
  | element (type : ElementType) (key : Value) (ref : Value) (props : Value)
  deriving DecidableEq, Repr

/-- The heap: the object at address `a` is the `a`-th entry. -/
abbrev Heap := List Object

/-- Creating an object: it gets the next free address and no existing entry is
touched. -/
def alloc (heap : Heap) (object : Object) : Value × Heap :=
  (.ref heap.length, heap ++ [object])

/-- Property read on a record: the stored value, `undefined` when the record
has no such property. -/
def getProp : Record → String → Value
  | [], _ => .undefined
  | (k, v) :: rest, name => if k = name then v else getProp rest name

/-- A destructuring target with an initialiser: the initialiser is used
exactly when the value read is `undefined`. -/
def bindingWithDefault (value dflt : Value) : Value :=
  match value with
  | .undefined => dflt
  | v => v

/-- A JSX element expression without `key`, `ref` or children: a new record
of the attributes and a new element object referring to it. -/
def jsxElement (type : ElementType) (attributes : Record) (heap : Heap) : Value × Heap :=
  let (propsRef, heap1) := alloc heap (.record attributes)
  alloc heap1 (.element type .null .null propsRef)

/-- The component `TypeAnimation` of `TypeAnimation.jsx`, called with the props
record `props` on the heap `heap`: the result is the reference to the
returned element together with the heap after the call. -/
def TypeAnimation (props : Record) (heap : Heap) : Except JSError (Value × Heap) :=
  let sequence := getProp props "sequence"
  let wrapper := bindingWithDefault (getProp props "wrapper") (.str "span")
  let cursor := bindingWithDefault (getProp props "cursor") (.bool true)
  let «repeat» := bindingWithDefault (getProp props "repeat") (.num .posInfinity)
  .ok (jsxElement RawTypeAnimation
    [("sequence", sequence), ("wrapper", wrapper), ("cursor", cursor), ("repeat", «repeat»)]
    heap)

end Store

/-! ## Equality of values is decidable -/

mutual
theorem JSValue.eq_of_beq : ∀ a b : JSValue, JSValue.beq a b = true → a = b
  | .undefined, b => by cases b <;> simp [JSValue.beq]
  | .null, b => by cases b <;> simp [JSValue.beq]
  | .bool _, b => by cases b <;> simp [JSValue.beq]
  | .num _, b => by cases b <;> simp [JSValue.beq]
  | .str _, b => by cases b <;> simp [JSValue.beq]
  | .func _, b => by cases b <;> simp [JSValue.beq]
  | .arr xs, b => by
    cases b <;> simp [JSValue.beq]
    exact JSValue.eq_of_beqList xs _
  | .obj xs, b => by
    cases b <;> simp [JSValue.beq]
    exact JSValue.eq_of_beqFields xs _
theorem JSValue.eq_of_beqList :
    ∀ xs ys : List JSValue, JSValue.beqList xs ys = true → xs = ys
  | [], ys => by cases ys <;> simp [JSValue.beqList]
  | x :: xs, ys => by
    cases ys with
    | nil => simp [JSValue.beqList]
    | cons y ys =>
      simp only [JSValue.beqList, Bool.and_eq_true, List.cons.injEq]
      exact fun h => ⟨JSValue.eq_of_beq x y h.1, JSValue.eq_of_beqList xs ys h.2⟩
theorem JSValue.eq_of_beqFields :
    ∀ xs ys : List (String × JSValue), JSValue.beqFields xs ys = true → xs = ys
  | [], ys => by cases ys <;> simp [JSValue.beqFields]
  | (k, x) :: xs, ys => by
    cases ys with
    | nil => simp [JSValue.beqFields]
    | cons y ys =>
      obtain ⟨l, y⟩ := y
      simp only [JSValue.beqFields, Bool.and_eq_true, List.cons.injEq, Prod.mk.injEq,
        beq_iff_eq]
      exact fun h => ⟨⟨h.1.1, JSValue.eq_of_beq x y h.1.2⟩, JSValue.eq_of_beqFields xs ys h.2⟩
end

mutual
theorem JSValue.beq_self : ∀ a : JSValue, JSValue.beq a a = true
  | .undefined => by simp [JSValue.beq]
  | .null => by simp [JSValue.beq]
  | .bool _ => by simp [JSValue.beq]
  | .num _ => by simp [JSValue.beq]
  | .str _ => by simp [JSValue.beq]
  | .func _ => by simp [JSValue.beq]
  | .arr xs => by simp [JSValue.beq, JSValue.beqList_self xs]
  | .obj xs => by simp [JSValue.beq, JSValue.beqFields_self xs]
theorem JSValue.beqList_self : ∀ xs : List JSValue, JSValue.beqList xs xs = true
  | [] => by simp [JSValue.beqList]
  | x :: xs => by simp [JSValue.beqList, JSValue.beq_self x, JSValue.beqList_self xs]
theorem JSValue.beqFields_self :
    ∀ xs : List (String × JSValue), JSValue.beqFields xs xs = true
  | [] => by simp [JSValue.beqFields]
  | (_, x) :: xs => by simp [JSValue.beqFields, JSValue.beq_self x, JSValue.beqFields_self xs]
end

instance : DecidableEq JSValue := fun a b =>
  decidable_of_iff (JSValue.beq a b = true)
    ⟨JSValue.eq_of_beq a b, fun h => h ▸ JSValue.beq_self a⟩

deriving instance DecidableEq for ReactElement

deriving instance DecidableEq for JSError

/-! ## Reading records and destructuring -/

/-- Reading a property the record does not have yields `undefined`. -/
theorem getProp_of_hasProp_false (props : Props) (name : String)
    (h : hasProp props name = false) : getProp props name = .undefined := by
  induction props with
  | nil => rfl
  | cons p rest ih =>
    obtain ⟨k, v⟩ := p
    by_cases hk : k = name
    · simp [hasProp, hk] at h
    · simp only [hasProp, hk, if_false] at h
      simp only [getProp, hk, if_false]
      exact ih h

/-- A value other than `undefined` can only be read from a property the
record has. -/
theorem hasProp_of_getProp_ne (props : Props) (name : String)
    (h : getProp props name ≠ .undefined) : hasProp props name = true := by
  cases hp : hasProp props name with
  | true => rfl
  | false => exact absurd (getProp_of_hasProp_false props name hp) h

/-- A value other than `undefined` wins over the initialiser. -/
theorem bindingWithDefault_of_ne (v d : JSValue) (h : v ≠ .undefined) :
    bindingWithDefault v d = v := by
  cases v <;> first | rfl | exact absurd rfl h

/-- The value `undefined` is replaced by the initialiser. -/
theorem bindingWithDefault_undefined (d : JSValue) :
    bindingWithDefault .undefined d = d := rfl

/-- The element the component returns, written out. -/
theorem TypeAnimation_eq (props : Props) :
    TypeAnimation props = .ok
      { type := RawTypeAnimation, key := .null, ref := .null,
        props :=
          [("sequence", getProp props "sequence"),
           ("wrapper", bindingWithDefault (getProp props "wrapper") (.str "span")),
           ("cursor", bindingWithDefault (getProp props "cursor") (.bool true)),
           ("repeat", bindingWithDefault (getProp props "repeat") Infinity)] } := rfl

/-- An omitted `sequence` reaches the widget as `undefined`: no default
stands in for it. -/
theorem TypeAnimation_sequence_omitted (props : Props)
    (h : hasProp props "sequence" = false) :
    ∃ e, TypeAnimation props = .ok e ∧ getProp e.props "sequence" = .undefined := by
  refine ⟨_, rfl, ?_⟩
  simp [jsxElement, getProp, getProp_of_hasProp_false props _ h]

/-- The result of the call on a heap, written out: the heap grows by the
element's props record and the element, in that order. -/
theorem Store.TypeAnimation_on_heap_eq (props : Store.Record) (heap : Store.Heap) :
    Store.TypeAnimation props heap = .ok (.ref (heap.length + 1),
      heap ++
        [.record
          [("sequence", Store.getProp props "sequence"),
           ("wrapper", Store.bindingWithDefault (Store.getProp props "wrapper") (.str "span")),
           ("cursor", Store.bindingWithDefault (Store.getProp props "cursor") (.bool true)),
           ("repeat", Store.bindingWithDefault (Store.getProp props "repeat")
              (.num .posInfinity))]] ++
        [.element RawTypeAnimation .null .null (.ref heap.length)]) := by
  simp only [Store.TypeAnimation, Store.jsxElement, Store.alloc, List.length_append,
    List.length_singleton]

/-! ## The forwarding contract -/

/-- C1, the field-by-field contract as the code has it: `sequence` reaches the
widget as read from the record, and each of `wrapper`, `cursor`, `repeat`
falls in exactly one of three cases: omitted, and the default is handed on
(`"span"`, `true`, `Infinity`); supplied as `undefined`, and the default is
handed on as well; supplied with any other value, and that value is handed
on. -/
theorem TypeAnimation_forwards_or_defaults (props : Props) :
    ∃ e, TypeAnimation props = .ok e ∧
      getProp e.props "sequence" = getProp props "sequence" ∧
      ((hasProp props "wrapper" = false ∧ getProp e.props "wrapper" = .str "span") ∨
       (hasProp props "wrapper" = true ∧ getProp props "wrapper" = .undefined ∧
          getProp e.props "wrapper" = .str "span") ∨
       (hasProp props "wrapper" = true ∧ getProp props "wrapper" ≠ .undefined ∧
          getProp e.props "wrapper" = getProp props "wrapper")) ∧
      ((hasProp props "cursor" = false ∧ getProp e.props "cursor" = .bool true) ∨
       (hasProp props "cursor" = true ∧ getProp props "cursor" = .undefined ∧
          getProp e.props "cursor" = .bool true) ∨
       (hasProp props "cursor" = true ∧ getProp props "cursor" ≠ .undefined ∧
          getProp e.props "cursor" = getProp props "cursor")) ∧
      ((hasProp props "repeat" = false ∧ getProp e.props "repeat" = Infinity) ∨
       (hasProp props "repeat" = true ∧ getProp props "repeat" = .undefined ∧
          getProp e.props "repeat" = Infinity) ∨
       (hasProp props "repeat" = true ∧ getProp props "repeat" ≠ .undefined ∧
          getProp e.props "repeat" = getProp props "repeat")) := by
  have key : ∀ (name : String) (d : JSValue),
      (hasProp props name = false ∧ bindingWithDefault (getProp props name) d = d) ∨
      (hasProp props name = true ∧ getProp props name = .undefined ∧
        bindingWithDefault (getProp props name) d = d) ∨
      (hasProp props name = true ∧ getProp props name ≠ .undefined ∧
        bindingWithDefault (getProp props name) d = getProp props name) := by
    intro name d
    cases hp : hasProp props name with
    | false =>
      left
      rw [getProp_of_hasProp_false props name hp]
      exact ⟨rfl, rfl⟩
    | true =>
      right
      by_cases hv : getProp props name = .undefined
      · left
        rw [hv]
        exact ⟨rfl, rfl, rfl⟩
      · right
        exact ⟨rfl, hv, bindingWithDefault_of_ne _ d hv⟩
  refine ⟨_, rfl, ?_, ?_, ?_, ?_⟩
  · simp [jsxElement, getProp]
  · simpa [jsxElement, getProp] using key "wrapper" (.str "span")
  · simpa [jsxElement, getProp] using key "cursor" (.bool true)
  · simpa [jsxElement, getProp] using key "repeat" Infinity

/-- C1 as worded fails on a record that supplies `wrapper` with the value
`undefined`: the field is not omitted, yet the widget is handed `"span"`, not
the supplied value. -/
theorem TypeAnimation_supplied_undefined_wrapper :
    TypeAnimation [("sequence", .arr [.str "Quizbook", .num (.finite 1000 0)]),
        ("wrapper", .undefined)]
      = .ok (jsxElement RawTypeAnimation
          [("sequence", .arr [.str "Quizbook", .num (.finite 1000 0)]),
           ("wrapper", .str "span"), ("cursor", .bool true), ("repeat", Infinity)]) ∧
    ¬ ∃ e, TypeAnimation [("sequence", .arr [.str "Quizbook", .num (.finite 1000 0)]),
        ("wrapper", .undefined)] = .ok e ∧
      ((hasProp [("sequence", .arr [.str "Quizbook", .num (.finite 1000 0)]),
            ("wrapper", .undefined)] "wrapper" = true ∧
          getProp e.props "wrapper" =
            getProp [("sequence", .arr [.str "Quizbook", .num (.finite 1000 0)]),
              ("wrapper", .undefined)] "wrapper") ∨
       (hasProp [("sequence", .arr [.str "Quizbook", .num (.finite 1000 0)]),
            ("wrapper", .undefined)] "wrapper" = false ∧
          getProp e.props "wrapper" = .str "span")) := by
  refine ⟨rfl, ?_⟩
  rintro ⟨e, he, h⟩
  have he2 : e = jsxElement RawTypeAnimation
      [("sequence", .arr [.str "Quizbook", .num (.finite 1000 0)]),
       ("wrapper", .str "span"), ("cursor", .bool true), ("repeat", Infinity)] := by
    have := he.symm
    simpa [TypeAnimation, bindingWithDefault, getProp] using this
  subst he2
  rcases h with ⟨_, h⟩ | ⟨h, _⟩
  · simp [jsxElement, getProp] at h
  · simp [hasProp] at h

/-- C2, restricted to values that are not `undefined`: when the record
supplies `wrapper`, `cursor` and `repeat` with values `w`, `c`, `r` other than
`undefined`, and `sequence` reads as `s`, the widget receives exactly
`s`, `w`, `c`, `r`, untransformed and with no default put in their place. -/
theorem TypeAnimation_passthrough (props : Props) (s w c r : JSValue)
    (hs : getProp props "sequence" = s) (hw : getProp props "wrapper" = w)
    (hc : getProp props "cursor" = c) (hr : getProp props "repeat" = r)
    (hw0 : w ≠ .undefined) (hc0 : c ≠ .undefined) (hr0 : r ≠ .undefined) :
    TypeAnimation props = .ok (jsxElement RawTypeAnimation
      [("sequence", s), ("wrapper", w), ("cursor", c), ("repeat", r)]) := by
  rw [TypeAnimation_eq, hs, hw, hc, hr, bindingWithDefault_of_ne w _ hw0,
    bindingWithDefault_of_ne c _ hc0, bindingWithDefault_of_ne r _ hr0]
  rfl

/-- Pass-through at a record that supplies all four fields, among them
`cursor = false` and `repeat = 3`. -/
theorem TypeAnimation_passthrough_witness :
    TypeAnimation [("sequence", .arr [.str "Ready?", .num (.finite 500 0), .str "Go!"]),
        ("wrapper", .str "h1"), ("cursor", .bool false), ("repeat", .num (.finite 3 0))]
      = .ok (jsxElement RawTypeAnimation
          [("sequence", .arr [.str "Ready?", .num (.finite 500 0), .str "Go!"]),
           ("wrapper", .str "h1"), ("cursor", .bool false),
           ("repeat", .num (.finite 3 0))]) :=
  TypeAnimation_passthrough _ _ _ _ _ rfl rfl rfl rfl (by simp) (by simp) (by simp)

/-- C2 as worded fails when one of the four supplied values is `undefined`:
the record below supplies all four fields, `cursor` with the value
`undefined`, and the widget receives `cursor = true` instead. -/
theorem TypeAnimation_all_supplied_undefined_cursor :
    TypeAnimation [("sequence", .arr [.str "Hello"]), ("wrapper", .str "div"),
        ("cursor", .undefined), ("repeat", .num (.finite 2 0))]
      = .ok (jsxElement RawTypeAnimation
          [("sequence", .arr [.str "Hello"]), ("wrapper", .str "div"),
           ("cursor", .bool true), ("repeat", .num (.finite 2 0))]) ∧
    TypeAnimation [("sequence", .arr [.str "Hello"]), ("wrapper", .str "div"),
        ("cursor", .undefined), ("repeat", .num (.finite 2 0))]
      ≠ .ok (jsxElement RawTypeAnimation
          [("sequence", .arr [.str "Hello"]), ("wrapper", .str "div"),
           ("cursor", .undefined), ("repeat", .num (.finite 2 0))]) := by
  refine ⟨rfl, ?_⟩
  simp [TypeAnimation, bindingWithDefault, getProp, jsxElement]

/-- C3: a record without a `wrapper` property makes the widget receive
`wrapper = "span"`, whatever else the record holds. -/
theorem TypeAnimation_wrapper_default (props : Props)
    (h : hasProp props "wrapper" = false) :
    ∃ e, TypeAnimation props = .ok e ∧ getProp e.props "wrapper" = .str "span" := by
  refine ⟨_, rfl, ?_⟩
  simp [jsxElement, getProp, getProp_of_hasProp_false props _ h, bindingWithDefault]

/-- The default wrapper at a record holding only the other three fields. -/
theorem TypeAnimation_wrapper_default_witness :
    hasProp [("sequence", .arr [.str "Hi"]), ("cursor", .bool false),
        ("repeat", .num (.finite 2 0))] "wrapper" = false ∧
    ∃ e, TypeAnimation [("sequence", .arr [.str "Hi"]), ("cursor", .bool false),
        ("repeat", .num (.finite 2 0))] = .ok e ∧
      getProp e.props "wrapper" = .str "span" :=
  ⟨rfl, TypeAnimation_wrapper_default _ rfl⟩

/-- C4: a record without a `cursor` property makes the widget receive
`cursor = true`, whatever else the record holds. -/
theorem TypeAnimation_cursor_default (props : Props)
    (h : hasProp props "cursor" = false) :
    ∃ e, TypeAnimation props = .ok e ∧ getProp e.props "cursor" = .bool true := by
  refine ⟨_, rfl, ?_⟩
  simp [jsxElement, getProp, getProp_of_hasProp_false props _ h, bindingWithDefault]

/-- The default cursor at a record holding only the other three fields. -/
theorem TypeAnimation_cursor_default_witness :
    hasProp [("sequence", .arr [.str "Hi"]), ("wrapper", .str "p"),
        ("repeat", .num (.finite 0 0))] "cursor" = false ∧
    ∃ e, TypeAnimation [("sequence", .arr [.str "Hi"]), ("wrapper", .str "p"),
        ("repeat", .num (.finite 0 0))] = .ok e ∧
      getProp e.props "cursor" = .bool true :=
  ⟨rfl, TypeAnimation_cursor_default _ rfl⟩

/-- C5: a record without a `repeat` property makes the widget receive
`repeat = Infinity`, whatever else the record holds. -/
theorem TypeAnimation_repeat_default (props : Props)
    (h : hasProp props "repeat" = false) :
    ∃ e, TypeAnimation props = .ok e ∧ getProp e.props "repeat" = Infinity := by
  refine ⟨_, rfl, ?_⟩
  simp [jsxElement, getProp, getProp_of_hasProp_false props _ h, bindingWithDefault]

/-- The default repeat count at a record holding only the other three
fields. -/
theorem TypeAnimation_repeat_default_witness :
    hasProp [("sequence", .arr []), ("wrapper", .null),
        ("cursor", .bool false)] "repeat" = false ∧
    ∃ e, TypeAnimation [("sequence", .arr []), ("wrapper", .null),
        ("cursor", .bool false)] = .ok e ∧
      getProp e.props "repeat" = Infinity :=
  ⟨rfl, TypeAnimation_repeat_default _ rfl⟩

/-- The tree embedding's view of `sequence`: the widget's `sequence` prop is
the value read from the record, `undefined` when there is none. -/
theorem TypeAnimation_sequence_read (props : Props) :
    ∃ e, TypeAnimation props = .ok e ∧
      getProp e.props "sequence" = getProp props "sequence" := by
  refine ⟨_, rfl, ?_⟩
  simp [jsxElement, getProp]

/-- C6: for every props record and every heap, the call returns a new
`RawTypeAnimation` element whose props record holds under `sequence` the very
value read from the caller's record: the same reference when it is an array,
so no copy, no check and no default, and `undefined` when there is none.  The
heap after the call is the heap before it followed by the two new objects:
every object that existed before the call, the caller's sequence array among
them, is the same afterwards, element for element. -/
theorem TypeAnimation_sequence_forwarded (props : Store.Record) (heap : Store.Heap) :
    ∃ fields after,
      Store.TypeAnimation props heap = .ok (.ref (heap.length + 1), after) ∧
      after[heap.length + 1]? =
        some (.element RawTypeAnimation .null .null (.ref heap.length)) ∧
      after[heap.length]? = some (.record fields) ∧
      Store.getProp fields "sequence" = Store.getProp props "sequence" ∧
      after.take heap.length = heap ∧
      ∀ a, a < heap.length → after[a]? = heap[a]? := by
  refine ⟨[("sequence", Store.getProp props "sequence"),
      ("wrapper", Store.bindingWithDefault (Store.getProp props "wrapper") (.str "span")),
      ("cursor", Store.bindingWithDefault (Store.getProp props "cursor") (.bool true)),
      ("repeat", Store.bindingWithDefault (Store.getProp props "repeat")
        (.num .posInfinity))],
    _, Store.TypeAnimation_on_heap_eq props heap, ?_, ?_, ?_, ?_, ?_⟩
  · have h1 : heap.length + 1 - heap.length = 1 := by omega
    rw [List.append_assoc, List.getElem?_append_right (Nat.le_succ _), h1]
    rfl
  · rw [List.append_assoc, List.getElem?_append_right (Nat.le_refl _), Nat.sub_self]
    rfl
  · simp [Store.getProp]
  · rw [List.append_assoc, List.take_left]
  · intro a ha
    rw [List.getElem?_append_left (by simp; omega), List.getElem?_append_left ha]

/-- A caller whose sequence array `["Quizbook", 1000, "Play"]` sits at address
0: the widget gets the reference to address 0, and after the call address 0
still holds `["Quizbook", 1000, "Play"]`. -/
theorem TypeAnimation_sequence_forwarded_witness :
    ∃ fields after,
      Store.TypeAnimation [("sequence", .ref 0), ("cursor", .bool false)]
          [.array [.str "Quizbook", .num (.finite 1000 0), .str "Play"]]
        = .ok (.ref 2, after) ∧
      after[1]? = some (.record fields) ∧
      Store.getProp fields "sequence" = .ref 0 ∧
      after[0]? = some (.array [.str "Quizbook", .num (.finite 1000 0), .str "Play"]) := by
  obtain ⟨fields, after, hrun, _, hfields, hseq, _, hframe⟩ :=
    TypeAnimation_sequence_forwarded [("sequence", .ref 0), ("cursor", .bool false)]
      [.array [.str "Quizbook", .num (.finite 1000 0), .str "Play"]]
  exact ⟨fields, after, hrun, hfields, hseq, hframe 0 (by decide)⟩

/-- C7: the component has no failing outcome: for every record the result is
a returned element, and that element is a `RawTypeAnimation`. -/
theorem TypeAnimation_never_throws (props : Props) :
    ∃ e, TypeAnimation props = .ok e ∧ e.type = RawTypeAnimation :=
  ⟨_, rfl, rfl⟩

/-- C8: the result is a single `RawTypeAnimation` element whose props are
exactly `sequence`, `wrapper`, `cursor`, `repeat`, in that order: there is no
`children` prop, no key and no ref. -/
theorem TypeAnimation_single_element (props : Props) :
    ∃ e, TypeAnimation props = .ok e ∧
      e.type = RawTypeAnimation ∧
      propNames e.props = ["sequence", "wrapper", "cursor", "repeat"] ∧
      hasProp e.props "children" = false ∧
      e.key = .null ∧ e.ref = .null :=
  ⟨_, rfl, rfl, rfl, rfl, rfl, rfl⟩

/-- C9: for each of `wrapper`, `cursor`, `repeat`, a supplied value other
than `undefined` (so also `null`, `false`, `0`, `""`) is handed to the widget
as it is; equivalently, the widget's value differs from the record's only
when the record's is `undefined`. -/
theorem TypeAnimation_default_only_for_undefined (props : Props) (name : String)
    (hname : name ∈ defaultedNames) (hv : getProp props name ≠ .undefined) :
    ∃ e, TypeAnimation props = .ok e ∧ getProp e.props name = getProp props name := by
  refine ⟨_, rfl, ?_⟩
  simp only [defaultedNames, List.mem_cons, List.mem_singleton, List.mem_nil_iff,
    or_false] at hname
  rcases hname with rfl | rfl | rfl <;>
    simp [jsxElement, getProp, bindingWithDefault_of_ne _ _ hv]

/-- Falsy and null values pass: `cursor = false`, `repeat = 0`, `wrapper = ""`
in one record, `wrapper = null` in another. -/
theorem TypeAnimation_default_only_for_undefined_witness :
    (∃ e, TypeAnimation [("wrapper", .str ""), ("cursor", .bool false),
        ("repeat", .num (.finite 0 0))] = .ok e ∧ getProp e.props "cursor" = .bool false) ∧
    (∃ e, TypeAnimation [("wrapper", .str ""), ("cursor", .bool false),
        ("repeat", .num (.finite 0 0))] = .ok e ∧
        getProp e.props "repeat" = .num (.finite 0 0)) ∧
    (∃ e, TypeAnimation [("wrapper", .str ""), ("cursor", .bool false),
        ("repeat", .num (.finite 0 0))] = .ok e ∧ getProp e.props "wrapper" = .str "") ∧
    (∃ e, TypeAnimation [("wrapper", .null)] = .ok e ∧ getProp e.props "wrapper" = .null) :=
  ⟨TypeAnimation_default_only_for_undefined _ "cursor" (by simp [defaultedNames])
      (by simp [getProp]),
   TypeAnimation_default_only_for_undefined _ "repeat" (by simp [defaultedNames])
      (by simp [getProp]),
   TypeAnimation_default_only_for_undefined _ "wrapper" (by simp [defaultedNames])
      (by simp [getProp]),
   TypeAnimation_default_only_for_undefined _ "wrapper" (by simp [defaultedNames])
      (by simp [getProp])⟩

/-- C10: two records that read alike under `sequence`, `wrapper`, `cursor`
and `repeat` give the same result, whatever other properties they hold; and
the element's props carry no name besides those four. -/
theorem TypeAnimation_depends_on_four_fields (p q : Props)
    (h : ∀ name ∈ forwardedNames, getProp p name = getProp q name) :
    TypeAnimation p = TypeAnimation q ∧
      ∃ e, TypeAnimation p = .ok e ∧
        ∀ name, hasProp e.props name = true → name ∈ forwardedNames := by
  refine ⟨?_, _, rfl, ?_⟩
  · rw [TypeAnimation_eq, TypeAnimation_eq, h "sequence" (by simp [forwardedNames]),
      h "wrapper" (by simp [forwardedNames]), h "cursor" (by simp [forwardedNames]),
      h "repeat" (by simp [forwardedNames])]
  · intro name hn
    simp only [jsxElement, hasProp] at hn
    simp only [forwardedNames, List.mem_cons, List.mem_singleton, List.mem_nil_iff, or_false]
    by_cases h1 : "sequence" = name
    · exact Or.inl h1.symm
    by_cases h2 : "wrapper" = name
    · exact Or.inr (Or.inl h2.symm)
    by_cases h3 : "cursor" = name
    · exact Or.inr (Or.inr (Or.inl h3.symm))
    by_cases h4 : "repeat" = name
    · exact Or.inr (Or.inr (Or.inr h4.symm))
    simp [h1, h2, h3, h4] at hn

/-- Two records with the same four fields and different extras (`className`
and `speed` in one, `style` in the other) render alike. -/
theorem TypeAnimation_depends_on_four_fields_witness :
    TypeAnimation [("className", .str "title"), ("sequence", .arr [.str "Quiz"]),
        ("wrapper", .str "h2"), ("cursor", .bool false), ("repeat", .num (.finite 1 0)),
        ("speed", .num (.finite 50 0))]
      = TypeAnimation [("sequence", .arr [.str "Quiz"]), ("wrapper", .str "h2"),
        ("style", .obj [("color", .str "red")]), ("cursor", .bool false),
        ("repeat", .num (.finite 1 0))] ∧
    ∃ e, TypeAnimation [("className", .str "title"), ("sequence", .arr [.str "Quiz"]),
        ("wrapper", .str "h2"), ("cursor", .bool false), ("repeat", .num (.finite 1 0)),
        ("speed", .num (.finite 50 0))] = .ok e ∧
      ∀ name, hasProp e.props name = true → name ∈ forwardedNames :=
  TypeAnimation_depends_on_four_fields _ _ (by
    intro name hn
    simp only [forwardedNames, List.mem_cons, List.mem_singleton, List.mem_nil_iff,
      or_false] at hn
    rcases hn with rfl | rfl | rfl | rfl <;> rfl)

end Quizbook
